import Mathlib

/-!
Verification of the sentiment-dashboard pipeline (`app.py`).

The script is embedded shallowly: strings are `List Char`, the pandas
DataFrame is a header (column names and dtypes) plus a list of rows, the
regular-expression substitutions of `clean_text` are implemented directly
with Python `re` semantics (leftmost match, greedy quantifiers), and the
external TextBlob polarity score is a parameter `pol : List Char → ℚ`.
Character classes model the ASCII fragment of Python's `\w` and `str.lower`
(the inputs of interest are ASCII); `\s` and `str.strip` use Python's
whitespace set.  Functions whose recursion is not structural take an
explicit fuel argument (always called with enough fuel for the input, so
the fueled branch is never hit) to keep every definition kernel-evaluable.
-/

namespace SentimentDashboard

/-- Python's whitespace code points: the set matched by `\s` in `re` (str
patterns) and stripped by `str.strip`. -/
def pySpaceVals : List Nat :=
  [9, 10, 11, 12, 13, 28, 29, 30, 31, 32, 133, 160, 5760,
   8192, 8193, 8194, 8195, 8196, 8197, 8198, 8199, 8200, 8201, 8202,
   8232, 8233, 8239, 8287, 12288]

/-- `\s` of Python `re`. -/
def isSpacePy (c : Char) : Bool := c.toNat ∈ pySpaceVals

/-- `\w` of Python `re` (ASCII fragment: letters, digits, underscore). -/
def isWordPy (c : Char) : Bool := c.isAlphanum || c == '_'

/-- A character kept by `re.sub(r"[^a-z\s]", "", ·)`: lowercase letter or
whitespace. -/
def keepLowerOrSpace (c : Char) : Bool := ('a' ≤ c && c ≤ 'z') || isSpacePy c

/-- `str.lower()` (ASCII case folding, as in `Char.toLower`). -/
def lowerPy (l : List Char) : List Char := l.map Char.toLower

/-- `re.sub(r"http\S+|www\S+", "", ·)`: at each position, leftmost-first a
literal `http` (preferred alternative) or `www` followed by a maximal
nonempty run of non-whitespace is deleted.  Fueled; `subUrl` supplies enough
fuel. -/
def subUrlF : Nat → List Char → List Char
  | 0, _ => []
  | _ + 1, [] => []
  | fuel + 1, c :: rest =>
    if "http".toList.isPrefixOf (c :: rest)
        && ((c :: rest).drop 4).head?.any (fun d => !isSpacePy d) then
      subUrlF fuel (((c :: rest).drop 4).dropWhile (fun d => !isSpacePy d))
    else if "www".toList.isPrefixOf (c :: rest)
        && ((c :: rest).drop 3).head?.any (fun d => !isSpacePy d) then
      subUrlF fuel (((c :: rest).drop 3).dropWhile (fun d => !isSpacePy d))
    else
      c :: subUrlF fuel rest

def subUrl (l : List Char) : List Char := subUrlF (l.length + 1) l

/-- `re.sub(r"@\w+", "", ·)` for `tag = '@'` and `re.sub(r"#\w+", "", ·)`
for `tag = '#'`: the tag character followed by a maximal nonempty run of
word characters is deleted.  Fueled; `subTagWord` supplies enough fuel. -/
def subTagWordF (tag : Char) : Nat → List Char → List Char
  | 0, _ => []
  | _ + 1, [] => []
  | fuel + 1, c :: rest =>
    if c == tag && rest.head?.any isWordPy then
      subTagWordF tag fuel (rest.dropWhile isWordPy)
    else
      c :: subTagWordF tag fuel rest

def subTagWord (tag : Char) (l : List Char) : List Char :=
  subTagWordF tag (l.length + 1) l

/-- `re.sub(r"\s+", " ", ·)`: each maximal nonempty run of whitespace is
replaced by a single space.  Fueled; `collapseWs` supplies enough fuel. -/
def collapseWsF : Nat → List Char → List Char
  | 0, _ => []
  | _ + 1, [] => []
  | fuel + 1, c :: rest =>
    if isSpacePy c then ' ' :: collapseWsF fuel (rest.dropWhile isSpacePy)
    else c :: collapseWsF fuel rest

def collapseWs (l : List Char) : List Char := collapseWsF (l.length + 1) l

/-- Remove a trailing run of characters satisfying `p`. -/
def dropTrailingWhile (p : Char → Bool) (l : List Char) : List Char :=
  (l.reverse.dropWhile p).reverse

/-- `str.strip()`: remove leading and trailing Python whitespace. -/
def pyStrip (l : List Char) : List Char :=
  dropTrailingWhile isSpacePy (l.dropWhile isSpacePy)

/-- `clean_text` of `app.py`, line for line:
lower-case, remove links, remove mentions, remove hashtags, remove
everything outside `[a-z\s]`, collapse whitespace runs and strip. -/
def clean_text (text : List Char) : List Char :=
  let t1 := lowerPy text
  let t2 := subUrl t1
  let t3 := subTagWord '@' t2
  let t4 := subTagWord '#' t3
  let t5 := t4.filter keepLowerOrSpace
  pyStrip (collapseWs t5)

/-- `get_sentiment` of `app.py`, with the external TextBlob polarity score
abstracted as the parameter `pol`. -/
def get_sentiment (pol : List Char → ℚ) (text : List Char) : String :=
  if pol text > 0 then "Positive"
  else if pol text < 0 then "Negative"
  else "Neutral"

/-- The cleaning pipeline in the order the specification asserts (URL
removal, then mention removal, then hashtag removal, then lower-casing,
then the character filter, collapsing and trimming), built from the same
transformation steps; used to compare the asserted order against
`clean_text`. -/
def cleanTextSpecOrder (text : List Char) : List Char :=
  pyStrip (collapseWs
    ((lowerPy (subTagWord '#' (subTagWord '@' (subUrl text)))).filter
      keepLowerOrSpace))

/-! ## The DataFrame model

A DataFrame is a header (column names with dtypes, in declared order) plus
a list of rows.  `read_csv` output has dtype `object` for string columns
and `int64` for integer columns; that is all the pipeline inspects
(`select_dtypes(include=["object"])`). -/

inductive Dtype
  | object
  | int64
  deriving DecidableEq

/-- A cell value: a string, an integer, or a missing value (NaN). -/
inductive Cell
  | vStr (s : List Char)
  | vInt (n : Int)
  | vNaN
  deriving DecidableEq

/-- Python `str()` of a cell, as used by `.astype(str)` and by the string
functions applied to column values. -/
def cellStr : Cell → List Char
  | .vStr s => s
  | .vInt n => (toString n).toList
  | .vNaN => "nan".toList

structure ColHeader where
  name : List Char
  dtype : Dtype
  deriving DecidableEq

structure Df where
  header : List ColHeader
  rows : List (List Cell)
  deriving DecidableEq

/-- Well-formedness of a DataFrame: every row has one cell per column.
Real pandas frames always satisfy this; the model allows ragged rows, so
theorems assume it. -/
def Df.Wf (df : Df) : Prop := ∀ r ∈ df.rows, r.length = df.header.length

instance (df : Df) : Decidable df.Wf := List.decidableBAll _ df.rows

/-- Indices of the string-typed columns, in declared order
(`df.select_dtypes(include=["object"]).columns`). -/
def textColIdxs (df : Df) : List Nat :=
  (List.range df.header.length).filter
    (fun i => (df.header.getD i ⟨[], .int64⟩).dtype == Dtype.object)

/-- `" ".join` of the stringified text-column values of one row
(`df[text_cols].astype(str).agg(" ".join, axis=1)`). -/
def combinedText (df : Df) (r : List Cell) : List Char :=
  List.intercalate " ".toList
    ((textColIdxs df).map (fun i => cellStr (r.getD i .vNaN)))

def combinedTexts (df : Df) : List (List Char) :=
  df.rows.map (combinedText df)

/-- Index of the first column with the given name. -/
def colIdx (df : Df) (name : List Char) : Option Nat :=
  df.header.findIdx? (fun h => h.name == name)

/-- The cells of the named column (`df[name]`), if the column exists.  A
column always has exactly one cell per row. -/
def getColCells (df : Df) (name : List Char) : Option (List Cell) :=
  (colIdx df name).map (fun j => df.rows.map (fun r => r.getD j .vNaN))

/-- Column assignment `df[name] = vals`: replaces the column of that name
if present (its dtype becomes `object`; the pipeline only ever assigns
string values), otherwise appends a new column. -/
def setCol (df : Df) (name : List Char) (vals : List Cell) : Df :=
  match colIdx df name with
  | some j =>
    { header := df.header.set j ⟨name, .object⟩,
      rows := List.zipWith (fun r v => r.set j v) df.rows vals }
  | none =>
    { header := df.header ++ [⟨name, .object⟩],
      rows := List.zipWith (fun r v => r ++ [v]) df.rows vals }

/-- Lines 42–70 of `app.py`: add the `Combined_Text`, `Cleaned_Text` and
`Sentiment` columns.  The text columns are detected on the input frame,
before any assignment, exactly as in the source. -/
def addSentimentCols (pol : List Char → ℚ) (df : Df) : Df :=
  let df1 := setCol df "Combined_Text".toList ((combinedTexts df).map .vStr)
  let c1 := (getColCells df1 "Combined_Text".toList).getD []
  let df2 := setCol df1 "Cleaned_Text".toList
    (c1.map (fun c => .vStr (clean_text (cellStr c))))
  let c2 := (getColCells df2 "Cleaned_Text".toList).getD []
  setCol df2 "Sentiment".toList
    (c2.map (fun c => .vStr (get_sentiment pol (cellStr c)).toList))

/-- Boolean-mask row selection `l[mask]` (pandas aligns mask and rows
positionally). -/
def maskSelect {α : Type} (mask : List Bool) (l : List α) : List α :=
  ((l.zip mask).filter (fun p => p.2)).map (fun p => p.1)

/-- `df[df["Sentiment"] == label]`.  The classified frame always carries a
`Sentiment` column, so the `getD []` default is never exercised there. -/
def selectBySentiment (df : Df) (label : String) : Df :=
  { df with
    rows := maskSelect
      (((getColCells df "Sentiment".toList).getD []).map
        (fun c => c == Cell.vStr label.toList))
      df.rows }

/-- Lines 132–135 of `app.py`: the filtered view for a select-box choice. -/
def filtered_df (choice : String) (df : Df) : Df :=
  if choice ≠ "All" then selectBySentiment df choice else df

/-- `total = len(df)` (line 75). -/
def totalRows (df : Df) : Nat := df.rows.length

/-- `len(df[df["Sentiment"] == label])` (lines 76–78). -/
def labelCount (df : Df) (label : String) : Nat :=
  (selectBySentiment df label).rows.length

/-! ## Summary metrics (tab 1) -/

inductive PyErr
  | zeroDivision
  deriving DecidableEq

/-- Python `/` on numbers: raises `ZeroDivisionError` on a zero divisor
(modelled in ℚ; the script only divides row counts). -/
def pyDivQ (a b : ℚ) : Except PyErr ℚ :=
  if b = 0 then .error .zeroDivision else .ok (a / b)

/-- Round-half-to-even to an integer, the rounding Python's `round` uses
(idealised over ℚ; the script rounds percentages of row counts). -/
def roundHalfEven (q : ℚ) : ℤ :=
  if q - ⌊q⌋ < 1 / 2 then ⌊q⌋
  else if 1 / 2 < q - ⌊q⌋ then ⌊q⌋ + 1
  else if 2 ∣ ⌊q⌋ then ⌊q⌋ else ⌊q⌋ + 1

/-- Python `round(x, 1)`. -/
def round1 (q : ℚ) : ℚ := (roundHalfEven (10 * q) : ℚ) / 10

/-- `round(n/total*100, 1)` as in lines 90–92; the division happens first
and is unguarded. -/
def pctOf (n total : Nat) : Except PyErr ℚ :=
  (pyDivQ (n : ℚ) (total : ℚ)).map (fun q => round1 (q * 100))

structure Summary where
  total : Nat
  pos : Nat
  neu : Nat
  neg : Nat
  posPct : ℚ
  neuPct : ℚ
  negPct : ℚ
  deriving DecidableEq

/-- Tab 1 (lines 86–92): the four metrics.  The percentage of each label is
computed with an unguarded division by `total`. -/
def renderSummary (df : Df) : Except PyErr Summary := do
  let t := totalRows df
  let p := labelCount df "Positive"
  let n := labelCount df "Negative"
  let u := labelCount df "Neutral"
  let pp ← pctOf p t
  let up ← pctOf u t
  let np ← pctOf n t
  .ok ⟨t, p, u, n, pp, up, np⟩

/-! ## Charts (tab 2) -/

/-- Distinct values in order of first occurrence. -/
def dedupFO {α : Type} [DecidableEq α] (l : List α) : List α :=
  l.foldl (fun acc x => if x ∈ acc then acc else acc ++ [x]) []

/-- `Series.value_counts()`: pairs each distinct value with its frequency,
sorted by frequency in descending order (stable, so ties keep first
occurrence order). -/
def valueCounts {α : Type} [DecidableEq α] (col : List α) : List (α × Nat) :=
  List.insertionSort (fun p q => q.2 ≤ p.2)
    ((dedupFO col).map (fun v => (v, col.countP (fun y => decide (y = v)))))

/-- The positional color list passed to both the bar and the pie plot
(lines 102 and 112). -/
def chartColors : List String := ["green", "grey", "red"]

/-- `df["Sentiment"].value_counts()`. -/
def sentimentCounts (df : Df) : List (Cell × Nat) :=
  valueCounts ((getColCells df "Sentiment".toList).getD [])

/-- Which color the bar and pie charts give each plotted sentiment value:
matplotlib pairs the `value_counts` index positionally with the color
list. -/
def barColorAssignment (df : Df) : List (Cell × String) :=
  ((sentimentCounts df).map Prod.fst).zip chartColors

/-- The x-axis order of the line chart (line 121): the `value_counts`
index. -/
def lineChartOrder (df : Df) : List Cell :=
  (sentimentCounts df).map Prod.fst

/-! ## CSV export and reload

`filtered_df.to_csv(index=False)` and `pd.read_csv`.  The writer is the
csv module's QUOTE_MINIMAL dialect (quote a field containing the quote
char, the delimiter or a line break, doubling embedded quotes); the reader
tokenises the same dialect and then applies pandas' per-field value
inference: the default NA sentinels become NaN and integer tokens become
int64 values.  (Float, bool and inf tokens are excluded from the
round-trip hypotheses via `stableCell` rather than modelled.) -/

def needsQuote (f : List Char) : Bool :=
  f.any (fun c => c == '"' || c == ',' || c == '\n' || c == '\r')

def escapeQuotes : List Char → List Char
  | [] => []
  | c :: t =>
    if c = '"' then '"' :: '"' :: escapeQuotes t else c :: escapeQuotes t

def writeField (f : List Char) : List Char :=
  if needsQuote f then '"' :: (escapeQuotes f ++ ['"']) else f

def writeRecord (fs : List (List Char)) : List Char :=
  List.intercalate [','] (fs.map writeField)

def writeGrid (g : List (List (List Char))) : List Char :=
  (g.map (fun r => writeRecord r ++ ['\n'])).flatten

/-- How `to_csv` prints one cell: strings verbatim (the framing layer adds
quoting), integers in decimal, NaN as an empty field. -/
def printCell : Cell → List Char
  | .vStr s => s
  | .vInt n => (toString n).toList
  | .vNaN => []

/-- `filtered_df.to_csv(index=False)`: one header record of column names,
then one record per row, each record terminated by a newline. -/
def dumpCsv (df : Df) : List Char :=
  writeGrid ((df.header.map (fun h => h.name)) ::
    df.rows.map (fun r => r.map printCell))

structure View where
  summary : Summary
  barPieColors : List (Cell × String)
  lineOrder : List Cell
  filtered : Df
  csv : List Char
  deriving DecidableEq

/-- The outcome of one script run for an uploaded frame: `st.stop()` after
the missing-text-columns error (the process survives; nothing further
runs), an uncaught Python exception, or a fully rendered page. -/
inductive Outcome
  | stoppedNoTextColumns
  | pyError (e : PyErr)
  | rendered (v : View)
  deriving DecidableEq

/-- Lines 30–144 of `app.py` for one uploaded frame and one select-box
choice: stop if there is no string-typed column, otherwise derive the
sentiment columns, render the summary (which can raise ZeroDivisionError),
the charts and the filtered, downloadable view. -/
def processUpload (pol : List Char → ℚ) (choice : String) (df : Df) :
    Outcome :=
  if (textColIdxs df).length = 0 then .stoppedNoTextColumns
  else
    let df' := addSentimentCols pol df
    match renderSummary df' with
    | .error e => .pyError e
    | .ok s =>
      let f := filtered_df choice df'
      .rendered ⟨s, barColorAssignment df', lineChartOrder df', f, dumpCsv f⟩

/-! ## Supporting lemmas -/

theorem maskSelect_nil {α : Type} (mask : List Bool) :
    maskSelect mask ([] : List α) = [] := by
  simp [maskSelect]

theorem maskSelect_cons {α : Type} (b : Bool) (m : List Bool) (a : α)
    (t : List α) :
    maskSelect (b :: m) (a :: t) =
      if b then a :: maskSelect m t else maskSelect m t := by
  cases b <;> simp [maskSelect, List.filter_cons]

theorem maskSelect_map_eq_filter {α : Type} (p : α → Bool) (l : List α) :
    maskSelect (l.map p) l = l.filter p := by
  induction l with
  | nil => rfl
  | cons a t ih =>
    rw [List.map_cons, maskSelect_cons, List.filter_cons]
    cases h : p a <;> simp [ih]

theorem maskSelect_length {α : Type} :
    ∀ (mask : List Bool) (l : List α), mask.length = l.length →
      (maskSelect mask l).length = mask.countP id
  | [], [], _ => rfl
  | [], _ :: _, h => by simp at h
  | _ :: _, [], h => by simp at h
  | b :: m, a :: t, h => by
    have ih := maskSelect_length m t (by simpa using h)
    rw [maskSelect_cons]
    cases b <;> simp [ih, List.countP_cons]

theorem mem_of_mem_zipWith {α β γ : Type} {f : α → β → γ} :
    ∀ {l₁ : List α} {l₂ : List β} {c : γ}, c ∈ List.zipWith f l₁ l₂ →
      ∃ a b, a ∈ l₁ ∧ b ∈ l₂ ∧ c = f a b := by
  intro l₁
  induction l₁ with
  | nil => intro l₂ c h; simp at h
  | cons a t ih =>
    intro l₂ c h
    cases l₂ with
    | nil => simp at h
    | cons b s =>
      rw [List.zipWith_cons_cons, List.mem_cons] at h
      rcases h with h | h
      · exact ⟨a, b, by simp, by simp, h⟩
      · obtain ⟨a', b', ha, hb, hc⟩ := ih h
        exact ⟨a', b', by simp [ha], by simp [hb], hc⟩

theorem setCol_rows_nil {df : Df} (name : List Char) (vals : List Cell)
    (h : df.rows = []) : (setCol df name vals).rows = [] := by
  unfold setCol
  cases colIdx df name <;> simp [h]

theorem addSentimentCols_rows_nil (pol : List Char → ℚ) {df : Df}
    (h : df.rows = []) : (addSentimentCols pol df).rows = [] := by
  unfold addSentimentCols
  exact setCol_rows_nil _ _ (setCol_rows_nil _ _ (setCol_rows_nil _ _ h))

theorem colIdx_lt_length {df : Df} {name : List Char} {j : Nat}
    (h : colIdx df name = some j) : j < df.header.length :=
  (List.findIdx?_eq_some_iff_getElem.mp h).1

theorem setCol_rows_length {df : Df} (name : List Char) {vals : List Cell}
    (h : vals.length = df.rows.length) :
    (setCol df name vals).rows.length = df.rows.length := by
  unfold setCol
  cases colIdx df name <;> simp [h]

theorem setCol_wf {df : Df} (hwf : df.Wf) (name : List Char)
    (vals : List Cell) : (setCol df name vals).Wf := by
  unfold setCol
  cases h : colIdx df name with
  | some j =>
    intro r hr
    simp only at hr
    obtain ⟨r₀, v, hr₀, _, rfl⟩ := mem_of_mem_zipWith hr
    simp [hwf r₀ hr₀]
  | none =>
    intro r hr
    simp only at hr
    obtain ⟨r₀, v, hr₀, _, rfl⟩ := mem_of_mem_zipWith hr
    simp [hwf r₀ hr₀]

theorem zipWith_setcol_getD (j : Nat) :
    ∀ (rows : List (List Cell)) (vals : List Cell),
      vals.length = rows.length → (∀ r ∈ rows, j < r.length) →
      (List.zipWith (fun r v => r.set j v) rows vals).map
        (fun r => r.getD j Cell.vNaN) = vals
  | [], [], _, _ => rfl
  | [], _ :: _, h, _ => by simp at h
  | _ :: _, [], h, _ => by simp at h
  | r :: rs, v :: vs, h, hb => by
    simp only [List.zipWith_cons_cons, List.map_cons, List.cons.injEq]
    refine ⟨?_, zipWith_setcol_getD j rs vs (by simpa using h)
      (fun r' hr' => hb r' (by simp [hr']))⟩
    rw [List.getD_eq_getElem?_getD, List.getElem?_set_self (hb r (by simp))]
    rfl

theorem zipWith_appendcol_getD (n : Nat) :
    ∀ (rows : List (List Cell)) (vals : List Cell),
      vals.length = rows.length → (∀ r ∈ rows, r.length = n) →
      (List.zipWith (fun r v => r ++ [v]) rows vals).map
        (fun r => r.getD n Cell.vNaN) = vals
  | [], [], _, _ => rfl
  | [], _ :: _, h, _ => by simp at h
  | _ :: _, [], h, _ => by simp at h
  | r :: rs, v :: vs, h, hb => by
    simp only [List.zipWith_cons_cons, List.map_cons, List.cons.injEq]
    refine ⟨?_, zipWith_appendcol_getD n rs vs (by simpa using h)
      (fun r' hr' => hb r' (by simp [hr']))⟩
    rw [List.getD_eq_getElem?_getD, ← hb r (by simp),
      List.getElem?_concat_length]
    rfl

theorem setCol_header_replace {df : Df} {name : List Char} {j : Nat}
    (h : colIdx df name = some j) (vals : List Cell) :
    (setCol df name vals).header = df.header.set j ⟨name, .object⟩ := by
  unfold setCol
  rw [h]

theorem setCol_rows_replace {df : Df} {name : List Char} {j : Nat}
    (h : colIdx df name = some j) (vals : List Cell) :
    (setCol df name vals).rows =
      List.zipWith (fun r v => r.set j v) df.rows vals := by
  unfold setCol
  rw [h]

theorem setCol_header_append {df : Df} {name : List Char}
    (h : colIdx df name = none) (vals : List Cell) :
    (setCol df name vals).header = df.header ++ [⟨name, .object⟩] := by
  unfold setCol
  rw [h]

theorem setCol_rows_append {df : Df} {name : List Char}
    (h : colIdx df name = none) (vals : List Cell) :
    (setCol df name vals).rows =
      List.zipWith (fun r v => r ++ [v]) df.rows vals := by
  unfold setCol
  rw [h]

theorem colIdx_setCol_replace {df : Df} {name : List Char} {j : Nat}
    (h : colIdx df name = some j) (vals : List Cell) :
    colIdx (setCol df name vals) name = some j := by
  have hj := colIdx_lt_length h
  obtain ⟨hlt, hp, hmin⟩ := List.findIdx?_eq_some_iff_getElem.mp h
  unfold colIdx
  rw [setCol_header_replace h vals]
  apply List.findIdx?_eq_some_iff_getElem.mpr
  refine ⟨by simpa using hj, by simp, ?_⟩
  intro k hk
  rw [List.getElem_set_ne (Nat.ne_of_gt hk)]
  exact hmin k hk

theorem colIdx_setCol_append {df : Df} {name : List Char}
    (h : colIdx df name = none) (vals : List Cell) :
    colIdx (setCol df name vals) name = some df.header.length := by
  unfold colIdx at h ⊢
  rw [setCol_header_append h vals]
  simp [List.findIdx?_append, h, List.findIdx?_cons]

theorem getColCells_setCol {df : Df} (hwf : df.Wf) {name : List Char}
    {vals : List Cell} (hlen : vals.length = df.rows.length) :
    getColCells (setCol df name vals) name = some vals := by
  cases h : colIdx df name with
  | some j =>
    have hj := colIdx_lt_length h
    simp only [getColCells, colIdx_setCol_replace h vals, Option.map_some',
      setCol_rows_replace h vals]
    rw [zipWith_setcol_getD j df.rows vals hlen
      (fun r hr => by rw [hwf r hr]; exact hj)]
  | none =>
    simp only [getColCells, colIdx_setCol_append h vals, Option.map_some',
      setCol_rows_append h vals]
    rw [zipWith_appendcol_getD df.header.length df.rows vals hlen hwf]

/-! ## Theorems -/

/-- C1, counterexample: on the spec's example input the cleaning function
does not produce `"check this out great"` — the regex `#\w+` deletes the
hashtag together with its word. -/
theorem cleanText_example_hashtag_word_not_kept :
    clean_text "Check this out http://x.co #great @bob!!!".toList ≠
      "check this out great".toList := by
  decide

/-- C1 (amended): on the spec's example input the cleaning function
produces `"check this out"` (the hashtag is removed together with its
word), and any row with a strictly positive polarity score is labelled
`"Positive"`. -/
theorem cleanText_example_and_positive_label :
    clean_text "Check this out http://x.co #great @bob!!!".toList =
        "check this out".toList ∧
      ∀ (pol : List Char → ℚ) (t : List Char),
        0 < pol t → get_sentiment pol t = "Positive" := by
  refine ⟨by decide, fun pol t h => ?_⟩
  simp [get_sentiment, h]

/-- Witness for C1: the amended theorem applied at a concrete positive
polarity function. -/
theorem cleanText_example_and_positive_label_witness :
    0 < (1 : ℚ) ∧ get_sentiment (fun _ => (1 : ℚ)) [] = "Positive" :=
  ⟨by norm_num,
    cleanText_example_and_positive_label.2 (fun _ => (1 : ℚ)) [] (by norm_num)⟩

/-- C2, counterexample: the cleaning function is not the composition in
the order the spec states (URL removal before lower-casing): on
`"HTTP://x.co"` the code lower-cases first and deletes the URL, while the
spec's order misses the upper-case URL and keeps `"httpxco"`. -/
theorem cleanText_order_differs_from_spec_order :
    clean_text "HTTP://x.co".toList ≠ cleanTextSpecOrder "HTTP://x.co".toList := by
  decide

/-- C2 (amended): for every input string the cleaning function equals the
ordered composition with lower-casing FIRST: lower-casing, then URL
removal, then @-mention removal, then #-hashtag removal, then removal of
all characters outside `[a-z]` and whitespace, then collapsing of
consecutive whitespace, then trimming. -/
theorem cleanText_eq_lower_first_composition :
    ∀ text : List Char,
      clean_text text =
        pyStrip (collapseWs
          ((subTagWord '#' (subTagWord '@' (subUrl (lowerPy text)))).filter
            keepLowerOrSpace)) := by
  intro text
  rfl

/-- C3: with the external polarity function as a parameter, the sentiment
label is a pure function of the cleaned text determined by a strict sign
threshold at zero: positive score ⇒ `"Positive"`, negative ⇒ `"Negative"`,
zero ⇒ `"Neutral"`. -/
theorem getSentiment_sign_threshold (pol : List Char → ℚ) (t : List Char) :
    (0 < pol t → get_sentiment pol t = "Positive") ∧
      (pol t < 0 → get_sentiment pol t = "Negative") ∧
      (pol t = 0 → get_sentiment pol t = "Neutral") := by
  refine ⟨fun h => by simp [get_sentiment, h], fun h => ?_, fun h => ?_⟩
  · have h' : ¬ pol t > 0 := by linarith
    simp [get_sentiment, h, h']
  · simp [get_sentiment, h]

/-- Witness for C3: the sign threshold evaluated at concrete polarity
functions for each of the three cases. -/
theorem getSentiment_sign_threshold_witness :
    get_sentiment (fun _ => (1 : ℚ)) [] = "Positive" ∧
      get_sentiment (fun _ => (-1 : ℚ)) [] = "Negative" ∧
      get_sentiment (fun _ => (0 : ℚ)) [] = "Neutral" :=
  ⟨(getSentiment_sign_threshold (fun _ => (1 : ℚ)) []).1 (by norm_num),
    (getSentiment_sign_threshold (fun _ => (-1 : ℚ)) []).2.1 (by norm_num),
    (getSentiment_sign_threshold (fun _ => (0 : ℚ)) []).2.2 rfl⟩

/-- C7: when the uploaded frame has no string-typed column, the script run
surfaces the blocking error and stops for that upload (the `st.stop`
outcome; the process survives to serve the next upload): no classification,
aggregation or rendering happens — the outcome carries no view. -/
theorem processUpload_stops_without_text_columns
    (pol : List Char → ℚ) (choice : String) (df : Df)
    (h : (textColIdxs df).length = 0) :
    processUpload pol choice df = .stoppedNoTextColumns := by
  simp [processUpload, h]

/-- Witness for C7: a one-column integer frame is stopped. -/
theorem processUpload_stops_without_text_columns_witness :
    ((textColIdxs (⟨[⟨"n".toList, .int64⟩], [[.vInt 3]]⟩ : Df)).length = 0) ∧
      processUpload (fun _ => (0 : ℚ)) "All"
          (⟨[⟨"n".toList, .int64⟩], [[.vInt 3]]⟩ : Df) =
        .stoppedNoTextColumns :=
  ⟨by decide,
    processUpload_stops_without_text_columns (fun _ => (0 : ℚ)) "All" _
      (by decide)⟩

/-- C10: an uploaded frame with at least one string-typed column but no
data rows passes the text-column check, and the summary metrics then
divide the label counts by the total row count of zero: the run dies with
a `ZeroDivisionError` instead of rendering — the division is unguarded. -/
theorem processUpload_zero_rows_division_error
    (pol : List Char → ℚ) (choice : String) (df : Df)
    (h1 : (textColIdxs df).length ≠ 0) (h2 : df.rows = []) :
    processUpload pol choice df = .pyError .zeroDivision := by
  have hrows := addSentimentCols_rows_nil pol h2
  have hsum : renderSummary (addSentimentCols pol df) =
      .error .zeroDivision := by
    simp [renderSummary, totalRows, hrows, pctOf, pyDivQ, Bind.bind,
      Except.bind, Except.map]
  simp [processUpload, h1, hsum]

/-- Witness for C10: a header-only frame with one string column raises the
division error. -/
theorem processUpload_zero_rows_division_error_witness :
    ((textColIdxs (⟨[⟨"t".toList, .object⟩], []⟩ : Df)).length ≠ 0) ∧
      processUpload (fun _ => (0 : ℚ)) "All"
          (⟨[⟨"t".toList, .object⟩], []⟩ : Df) =
        .pyError .zeroDivision :=
  ⟨by decide,
    processUpload_zero_rows_division_error (fun _ => (0 : ℚ)) "All" _
      (by decide) (by decide)⟩

/-- `get_sentiment` only ever returns one of the three labels. -/
theorem get_sentiment_mem_labels (pol : List Char → ℚ) (t : List Char) :
    get_sentiment pol t = "Positive" ∨ get_sentiment pol t = "Negative" ∨
      get_sentiment pol t = "Neutral" := by
  unfold get_sentiment
  split_ifs <;> simp

theorem getColCells_length {df : Df} {name : List Char} {vals : List Cell}
    (hc : getColCells df name = some vals) : vals.length = df.rows.length := by
  unfold getColCells at hc
  cases h : colIdx df name with
  | none => rw [h] at hc; simp at hc
  | some j =>
    rw [h] at hc
    simp only [Option.map_some', Option.some.injEq] at hc
    rw [← hc]
    simp

theorem getColCells_getD_length {df : Df} {name : List Char} {j : Nat}
    (h : colIdx df name = some j) :
    ((getColCells df name).getD []).length = df.rows.length := by
  simp [getColCells, h]

/-- The count a label filter selects, in terms of the `Sentiment`
column. -/
theorem labelCount_of_sentiment_col {df : Df} {vals : List Cell}
    (hc : getColCells df "Sentiment".toList = some vals) (label : String) :
    labelCount df label =
      vals.countP (fun c => c == Cell.vStr label.toList) := by
  have hl : vals.length = df.rows.length := getColCells_length hc
  unfold labelCount selectBySentiment
  simp only [hc, Option.getD_some]
  rw [maskSelect_length _ _ (by simpa using hl)]
  simp [List.countP_map, Function.comp]

theorem countP_labels_sum (l : List Cell) (g : Cell → String)
    (h : ∀ c ∈ l, g c = "Positive" ∨ g c = "Negative" ∨ g c = "Neutral") :
    l.countP (fun c => Cell.vStr (g c).toList ==
        Cell.vStr "Positive".toList) +
      l.countP (fun c => Cell.vStr (g c).toList ==
        Cell.vStr "Neutral".toList) +
      l.countP (fun c => Cell.vStr (g c).toList ==
        Cell.vStr "Negative".toList) = l.length := by
  induction l with
  | nil => simp
  | cons a t ih =>
    have ht := ih (fun c hc => h c (List.mem_cons_of_mem a hc))
    rcases h a (List.mem_cons_self a t) with ha | ha | ha <;>
      simp only [List.countP_cons, ha, List.length_cons] <;>
      [(rw [if_pos (by decide), if_neg (by decide), if_neg (by decide)]);
        (rw [if_neg (by decide), if_neg (by decide), if_pos (by decide)]);
        (rw [if_neg (by decide), if_pos (by decide), if_neg (by decide)])] <;>
      omega

/-- C5: on every well-formed classified frame, the `Positive`, `Neutral`
and `Negative` counts of the summary metrics add up to the total row
count. -/
theorem labelCounts_partition_rows (pol : List Char → ℚ) (df : Df)
    (hwf : df.Wf) :
    labelCount (addSentimentCols pol df) "Positive" +
      labelCount (addSentimentCols pol df) "Neutral" +
      labelCount (addSentimentCols pol df) "Negative" =
      totalRows (addSentimentCols pol df) := by
  have main : ∀ (d2 : Df) (c2 : List Cell), d2.Wf →
      c2.length = d2.rows.length →
      labelCount (setCol d2 "Sentiment".toList
          (c2.map (fun c =>
            .vStr (get_sentiment pol (cellStr c)).toList))) "Positive" +
        labelCount (setCol d2 "Sentiment".toList
          (c2.map (fun c =>
            .vStr (get_sentiment pol (cellStr c)).toList))) "Neutral" +
        labelCount (setCol d2 "Sentiment".toList
          (c2.map (fun c =>
            .vStr (get_sentiment pol (cellStr c)).toList))) "Negative" =
        totalRows (setCol d2 "Sentiment".toList
          (c2.map (fun c =>
            .vStr (get_sentiment pol (cellStr c)).toList))) := by
    intro d2 c2 hwf2 hlen2
    have hlen3 : (c2.map (fun c =>
        Cell.vStr (get_sentiment pol (cellStr c)).toList)).length =
        d2.rows.length := by simpa using hlen2
    have hc3 := @getColCells_setCol d2 hwf2 "Sentiment".toList _ hlen3
    rw [labelCount_of_sentiment_col hc3, labelCount_of_sentiment_col hc3,
      labelCount_of_sentiment_col hc3]
    have htot : totalRows (setCol d2 "Sentiment".toList
        (c2.map (fun c =>
          Cell.vStr (get_sentiment pol (cellStr c)).toList))) =
        (c2.map (fun c =>
          Cell.vStr (get_sentiment pol (cellStr c)).toList)).length := by
      rw [totalRows, setCol_rows_length _ hlen3, ← hlen3]
    rw [htot]
    simp only [List.countP_map]
    have := countP_labels_sum c2 (fun c => get_sentiment pol (cellStr c))
      (fun c _ => get_sentiment_mem_labels pol (cellStr c))
    simpa [Function.comp] using this
  unfold addSentimentCols
  apply main
  · exact setCol_wf (setCol_wf hwf _ _) _ _
  · have hlen1 : ((combinedTexts df).map Cell.vStr).length =
        df.rows.length := by simp [combinedTexts]
    obtain ⟨j1, hj1⟩ : ∃ j, colIdx (setCol df "Combined_Text".toList
        ((combinedTexts df).map Cell.vStr)) "Combined_Text".toList =
        some j := by
      cases h : colIdx df "Combined_Text".toList
      · exact ⟨_, colIdx_setCol_append h _⟩
      · exact ⟨_, colIdx_setCol_replace h _⟩
    have hlc1 := getColCells_getD_length hj1
    obtain ⟨j2, hj2⟩ : ∃ j, colIdx (setCol
        (setCol df "Combined_Text".toList ((combinedTexts df).map Cell.vStr))
        "Cleaned_Text".toList
        (((getColCells (setCol df "Combined_Text".toList
            ((combinedTexts df).map Cell.vStr))
          "Combined_Text".toList).getD []).map
          (fun c => Cell.vStr (clean_text (cellStr c)))))
        "Cleaned_Text".toList = some j := by
      cases h : colIdx (setCol df "Combined_Text".toList
          ((combinedTexts df).map Cell.vStr)) "Cleaned_Text".toList
      · exact ⟨_, colIdx_setCol_append h _⟩
      · exact ⟨_, colIdx_setCol_replace h _⟩
    have hlc2 := getColCells_getD_length hj2
    rw [hlc2, setCol_rows_length]
    simpa using hlc1

/-- Witness for C5: the partition identity on a concrete three-row
frame. -/
theorem labelCounts_partition_rows_witness :
    (⟨[⟨"t".toList, .object⟩],
      [[.vStr "a".toList], [.vStr "b".toList], [.vStr "c".toList]]⟩ :
        Df).Wf ∧
      labelCount (addSentimentCols (fun _ => (1 : ℚ))
          (⟨[⟨"t".toList, .object⟩],
            [[.vStr "a".toList], [.vStr "b".toList],
              [.vStr "c".toList]]⟩ : Df)) "Positive" +
        labelCount (addSentimentCols (fun _ => (1 : ℚ))
          (⟨[⟨"t".toList, .object⟩],
            [[.vStr "a".toList], [.vStr "b".toList],
              [.vStr "c".toList]]⟩ : Df)) "Neutral" +
        labelCount (addSentimentCols (fun _ => (1 : ℚ))
          (⟨[⟨"t".toList, .object⟩],
            [[.vStr "a".toList], [.vStr "b".toList],
              [.vStr "c".toList]]⟩ : Df)) "Negative" =
        totalRows (addSentimentCols (fun _ => (1 : ℚ))
          (⟨[⟨"t".toList, .object⟩],
            [[.vStr "a".toList], [.vStr "b".toList],
              [.vStr "c".toList]]⟩ : Df)) :=
  ⟨by decide, labelCounts_partition_rows (fun _ => (1 : ℚ)) _ (by decide)⟩

/-- C6: for each of the three label choices, the filter returns exactly
the rows whose `Sentiment` entry equals that label — all of them, in
order, and no others — and the choice `"All"` returns the frame
unchanged. -/
theorem filteredDf_exact_rows (df : Df) (choice : String) (j : Nat)
    (hmem : choice ∈ (["Positive", "Neutral", "Negative"] : List String))
    (hj : colIdx df "Sentiment".toList = some j) :
    (filtered_df choice df).rows =
        df.rows.filter
          (fun r => r.getD j Cell.vNaN == Cell.vStr choice.toList) ∧
      filtered_df "All" df = df := by
  constructor
  · have hne : choice ≠ "All" := by
      intro hAll
      rw [hAll] at hmem
      exact absurd hmem (by decide)
    unfold filtered_df
    rw [if_pos hne]
    unfold selectBySentiment
    simp only [getColCells, hj, Option.map_some', Option.getD_some,
      List.map_map]
    exact maskSelect_map_eq_filter _ df.rows
  · simp [filtered_df]

/-- Witness for C6: the `"Positive"` filter on a concrete two-row
classified frame. -/
theorem filteredDf_exact_rows_witness :
    ("Positive" ∈ (["Positive", "Neutral", "Negative"] : List String)) ∧
      colIdx (⟨[⟨"Sentiment".toList, .object⟩],
        [[.vStr "Positive".toList], [.vStr "Negative".toList]]⟩ : Df)
        "Sentiment".toList = some 0 ∧
      ((filtered_df "Positive"
          (⟨[⟨"Sentiment".toList, .object⟩],
            [[.vStr "Positive".toList], [.vStr "Negative".toList]]⟩ :
              Df)).rows =
        (⟨[⟨"Sentiment".toList, .object⟩],
          [[.vStr "Positive".toList],
            [.vStr "Negative".toList]]⟩ : Df).rows.filter
          (fun r => r.getD 0 Cell.vNaN == Cell.vStr "Positive".toList) ∧
        filtered_df "All"
          (⟨[⟨"Sentiment".toList, .object⟩],
            [[.vStr "Positive".toList], [.vStr "Negative".toList]]⟩ : Df) =
          ⟨[⟨"Sentiment".toList, .object⟩],
            [[.vStr "Positive".toList], [.vStr "Negative".toList]]⟩) :=
  ⟨by decide, by decide,
    filteredDf_exact_rows _ "Positive" 0 (by decide) (by decide)⟩

/-- The fixed label-to-color mapping that the specification asserts for
the bar and pie charts (stated from the spec, for comparison with the
positional assignment the code performs). -/
def claimedFixedColor (c : Cell) : Option String :=
  if c = .vStr "Positive".toList then some "green"
  else if c = .vStr "Neutral".toList then some "grey"
  else if c = .vStr "Negative".toList then some "red"
  else none

/-- C8, counterexample: on a classified frame with two Negative rows and
one Positive row, `value_counts` puts `Negative` first, so the positional
color list gives `Negative` the color green — not the red of the claimed
fixed mapping. -/
theorem chartColors_not_fixed_mapping :
    (Cell.vStr "Negative".toList, "green") ∈
        barColorAssignment (addSentimentCols
          (fun t => if t = "good".toList then (1 : ℚ) else (-1 : ℚ))
          (⟨[⟨"t".toList, .object⟩],
            [[.vStr "bad".toList], [.vStr "awful".toList],
              [.vStr "good".toList]]⟩ : Df)) ∧
      claimedFixedColor (Cell.vStr "Negative".toList) ≠ some "green" := by
  constructor
  · decide
  · decide

/-- C8 (amended): the charts' display order is the `value_counts` order —
distinct sentiment values sorted by descending frequency (hence
data-dependent) — the plotted count of each value is its frequency in the
`Sentiment` column, and the bar/pie colors green, grey, red are assigned
positionally along that order, as is the line chart's x-axis. -/
theorem chartColors_follow_descending_counts (df : Df) :
    (∀ p ∈ sentimentCounts df,
        p.2 = ((getColCells df "Sentiment".toList).getD []).countP
          (fun y => decide (y = p.1))) ∧
      List.Pairwise (fun p q => q.2 ≤ p.2) (sentimentCounts df) ∧
      barColorAssignment df =
        ((sentimentCounts df).map Prod.fst).zip chartColors ∧
      lineChartOrder df = (sentimentCounts df).map Prod.fst := by
  refine ⟨?_, ?_, rfl, rfl⟩
  · intro p hp
    unfold sentimentCounts valueCounts at hp
    rw [List.mem_insertionSort] at hp
    obtain ⟨v, _, rfl⟩ := List.mem_map.mp hp
    rfl
  · unfold sentimentCounts valueCounts
    haveI : IsTotal (Cell × Nat) (fun p q => q.2 ≤ p.2) :=
      ⟨fun a b => (Nat.le_total b.2 a.2)⟩
    haveI : IsTrans (Cell × Nat) (fun p q => q.2 ≤ p.2) :=
      ⟨fun _ _ _ h1 h2 => Nat.le_trans h2 h1⟩
    exact List.sorted_insertionSort _ _

/-! ### Shape of the cleaned text (for C4) -/

theorem head?_dropWhile_false (p : Char → Bool) (l : List Char) (c : Char)
    (h : (l.dropWhile p).head? = some c) : p c = false := by
  have hh := List.head?_dropWhile_not p l
  rw [h] at hh
  exact hh

theorem collapseWsF_mem :
    ∀ (fuel : Nat) (l : List Char) (c : Char), c ∈ collapseWsF fuel l →
      c = ' ' ∨ (c ∈ l ∧ isSpacePy c = false) := by
  intro fuel
  induction fuel with
  | zero => intro l c h; simp [collapseWsF] at h
  | succ fuel ih =>
    intro l c h
    cases l with
    | nil => simp [collapseWsF] at h
    | cons a t =>
      by_cases ha : isSpacePy a
      · rw [collapseWsF, if_pos ha] at h
        rcases List.mem_cons.mp h with rfl | h
        · exact Or.inl rfl
        · rcases ih _ _ h with rfl | ⟨hm, hs⟩
          · exact Or.inl rfl
          · exact Or.inr ⟨List.mem_cons_of_mem a
              ((List.dropWhile_suffix isSpacePy).subset hm), hs⟩
      · rw [collapseWsF, if_neg ha] at h
        rcases List.mem_cons.mp h with rfl | h
        · exact Or.inr ⟨List.mem_cons_self _ _, by simpa using ha⟩
        · rcases ih _ _ h with rfl | ⟨hm, hs⟩
          · exact Or.inl rfl
          · exact Or.inr ⟨List.mem_cons_of_mem _ hm, hs⟩

theorem collapseWsF_head_ne_space :
    ∀ (fuel : Nat) (m : List Char) (x : Char),
      (∀ d, m.head? = some d → isSpacePy d = false) →
      (collapseWsF fuel m).head? = some x → x ≠ ' ' := by
  intro fuel m x hm hx
  cases fuel with
  | zero => simp [collapseWsF] at hx
  | succ fuel =>
    cases m with
    | nil => simp [collapseWsF] at hx
    | cons d t =>
      have hd := hm d rfl
      rw [collapseWsF, if_neg (by simp [hd])] at hx
      simp only [List.head?_cons, Option.some.injEq] at hx
      subst hx
      intro hsp
      rw [hsp] at hd
      exact absurd hd (by decide)

theorem collapseWsF_chain' :
    ∀ (fuel : Nat) (l : List Char),
      List.Chain' (fun a b => ¬(a = ' ' ∧ b = ' ')) (collapseWsF fuel l) := by
  intro fuel
  induction fuel with
  | zero => intro l; simp [collapseWsF]
  | succ fuel ih =>
    intro l
    cases l with
    | nil => simp [collapseWsF]
    | cons a t =>
      by_cases ha : isSpacePy a
      · rw [collapseWsF, if_pos ha]
        refine List.chain'_cons'.mpr ⟨?_, ih _⟩
        intro y hy
        have := collapseWsF_head_ne_space fuel (t.dropWhile isSpacePy) y
          (fun d hd => head?_dropWhile_false isSpacePy t d hd) hy
        tauto
      · rw [collapseWsF, if_neg ha]
        refine List.chain'_cons'.mpr ⟨?_, ih _⟩
        intro y _
        have : a ≠ ' ' := by
          intro hsp
          rw [hsp] at ha
          exact ha (by decide)
        tauto

theorem chain'_dropWhile {R : Char → Char → Prop} (p : Char → Bool) :
    ∀ {l : List Char}, List.Chain' R l → List.Chain' R (l.dropWhile p)
  | [], _ => List.chain'_nil
  | a :: t, h => by
    by_cases ha : p a
    · rw [List.dropWhile_cons, if_pos ha]
      exact chain'_dropWhile p h.tail
    · rw [List.dropWhile_cons, if_neg ha]
      exact h

theorem dropTrailingWhile_isPrefixOf (p : Char → Bool) (l : List Char) :
    dropTrailingWhile p l <+: l := by
  unfold dropTrailingWhile
  have h := List.reverse_prefix.mpr (List.dropWhile_suffix (l := l.reverse) p)
  rwa [List.reverse_reverse] at h

theorem head?_of_prefix {x m : List Char} {c : Char} (h : x <+: m)
    (hx : x.head? = some c) : m.head? = some c := by
  obtain ⟨t, rfl⟩ := h
  cases x with
  | nil => simp at hx
  | cons a s => simpa using hx

theorem pyStrip_head_not_space (l : List Char) (c : Char)
    (h : (pyStrip l).head? = some c) : isSpacePy c = false := by
  unfold pyStrip at h
  have hm := head?_of_prefix (dropTrailingWhile_isPrefixOf isSpacePy _) h
  exact head?_dropWhile_false isSpacePy l c hm

theorem pyStrip_last_not_space (l : List Char) (c : Char)
    (h : (pyStrip l).getLast? = some c) : isSpacePy c = false := by
  unfold pyStrip dropTrailingWhile at h
  rw [← List.head?_reverse, List.reverse_reverse] at h
  exact head?_dropWhile_false isSpacePy _ c h

theorem mem_pyStrip {l : List Char} {c : Char} (h : c ∈ pyStrip l) :
    c ∈ l := by
  unfold pyStrip at h
  have h1 := (dropTrailingWhile_isPrefixOf isSpacePy (l.dropWhile isSpacePy)).subset h
  exact (List.dropWhile_suffix isSpacePy).subset h1

theorem chain'_pyStrip {R : Char → Char → Prop} {l : List Char}
    (h : List.Chain' R l) :
    List.Chain' R (pyStrip l) := by
  unfold pyStrip dropTrailingWhile
  rw [List.chain'_reverse]
  apply chain'_dropWhile
  rw [List.chain'_reverse]
  exact chain'_dropWhile _ h

/-- C4: for every input string, the cleaned text consists only of
lowercase letters `a`–`z` and space characters, carries no leading or
trailing whitespace, and never has two adjacent spaces — i.e. single
spaces separate nonempty words (the empty output is allowed). -/
theorem cleanText_wellformed_output (text : List Char) :
    (∀ c ∈ clean_text text, ('a' ≤ c ∧ c ≤ 'z') ∨ c = ' ') ∧
      (∀ c, (clean_text text).head? = some c → c ≠ ' ') ∧
      (∀ c, (clean_text text).getLast? = some c → c ≠ ' ') ∧
      List.Chain' (fun a b => ¬(a = ' ' ∧ b = ' ')) (clean_text text) := by
  have hclean : clean_text text =
      pyStrip (collapseWs
        ((subTagWord '#' (subTagWord '@' (subUrl (lowerPy text)))).filter
          keepLowerOrSpace)) := rfl
  rw [hclean]
  refine ⟨?_, ?_, ?_, ?_⟩
  · intro c hc
    have h1 := mem_pyStrip hc
    rcases collapseWsF_mem _ _ _ h1 with rfl | ⟨hm, hs⟩
    · exact Or.inr rfl
    · have hk := List.of_mem_filter hm
      unfold keepLowerOrSpace at hk
      rw [hs] at hk
      simp only [Bool.or_false, Bool.and_eq_true, decide_eq_true_eq] at hk
      exact Or.inl hk
  · intro c hc hsp
    have := pyStrip_head_not_space _ c hc
    rw [hsp] at this
    exact absurd this (by decide)
  · intro c hc hsp
    have := pyStrip_last_not_space _ c hc
    rw [hsp] at this
    exact absurd this (by decide)
  · exact chain'_pyStrip (collapseWsF_chain' _ _)

/-! ### CSV round trip (for C9) -/

end SentimentDashboard
